import Mathlib

/-!
Shallow embedding of the multi-key Gemini invocation manager of
`src/VanillaRag.py` (class `GeminiAPIManager` and method
`VanillaRAG._invoke_with_gemini`), together with proofs of the stated
properties of quota tracking, credential rotation and the retry loop.

Modelling conventions:
* Timestamps are integers (`Int`); `datetime.now()` is made explicit by
  passing the current time `now : Int` to each operation that reads the
  clock.  Inside one iteration of the retry loop all clock reads share a
  single instant `times k`; across iterations the schedule `times` may
  advance arbitrarily (monotonicity is assumed only where a claim needs it).
* The backend call `llm.invoke(messages)` is an oracle
  `backend : Nat → Nat → Except String String` giving, for attempt number
  `k` and credential index `i`, either a response or an error message.
* The per-credential request history (a Python dict with keys `0..N-1`)
  is a total function `Nat → List Int`; all accesses performed by the code
  use indices `< N`.
* Python exceptions are modelled with `Except String`; the retry loop of
  `_invoke_with_gemini` is written with explicit fuel `max_retries = N`,
  exactly as the bounded `for _ in range(max_retries)` of the source.
-/

/-- `API_QUOTA_LIMIT = 10` (requests per window), from `src/VanillaRag.py`. -/
def API_QUOTA_LIMIT : Nat := 10

/-- `API_QUOTA_WINDOW = 60` (seconds), from `src/VanillaRag.py`. -/
def API_QUOTA_WINDOW : Int := 60

/-- State of `GeminiAPIManager`: the retained key list, the rotation cursor
`current_api_index`, and the per-credential request-timestamp history. -/
structure ManagerState where
  apiKeys : List String
  currentApiIndex : Nat
  apiRequestHistory : Nat → List Int
  deriving Inhabited

/-- Python truthiness filter `[k for k in api_keys if k]`: drops `None` and
empty strings. -/
def filteredKeys (keys : List (Option String)) : List String :=
  keys.filterMap fun k =>
    match k with
    | none => none
    | some str => if str = "" then none else some str

/-- `GeminiAPIManager.__init__`: filter the supplied keys, fail with
`ValueError("No Gemini API keys provided")` when nothing remains, otherwise
start with cursor `0` and an empty history for every credential. -/
def mkGeminiAPIManager (keys : List (Option String)) : Except String ManagerState :=
  if filteredKeys keys = [] then
    .error "No Gemini API keys provided"
  else
    .ok { apiKeys := filteredKeys keys
          currentApiIndex := 0
          apiRequestHistory := fun _ => [] }

/-- `GeminiAPIManager.get_current_api_key`: `self.api_keys[self.current_api_index]`.
Python list indexing raises on an out-of-range index, modelled by `Option`. -/
def get_current_api_key (s : ManagerState) : Option String :=
  s.apiKeys.get? s.currentApiIndex

/-- `GeminiAPIManager.record_request`: append the current timestamp to the
history of credential `i`. -/
def record_request (s : ManagerState) (i : Nat) (now : Int) : ManagerState :=
  { s with apiRequestHistory :=
      Function.update s.apiRequestHistory i (s.apiRequestHistory i ++ [now]) }

/-- `GeminiAPIManager.get_quota_usage`: `sum(1 for t in history[i] if t > now - 60)`,
the number of recorded timestamps strictly newer than the window cutoff. -/
def get_quota_usage (s : ManagerState) (i : Nat) (now : Int) : Nat :=
  (s.apiRequestHistory i).foldl
    (fun acc t => if t > now - API_QUOTA_WINDOW then acc + 1 else acc) 0

/-- `GeminiAPIManager.is_quota_exceeded`: `get_quota_usage(i) >= API_QUOTA_LIMIT`. -/
def is_quota_exceeded (s : ManagerState) (i : Nat) (now : Int) : Bool :=
  decide (get_quota_usage s i now ≥ API_QUOTA_LIMIT)

/-- Body of the bounded probe loop of `GeminiAPIManager.rotate_to_next_api`:
`for _ in range(len(api_keys))`, at each step committing the cursor to
`(cursor + 1) % N` and returning `True` as soon as the committed index is not
quota-exceeded. -/
def rotateLoop (now : Int) : ManagerState → Nat → ManagerState × Bool
  | s, 0 => (s, false)
  | s, fuel + 1 =>
    let next := (s.currentApiIndex + 1) % s.apiKeys.length
    let s' := { s with currentApiIndex := next }
    if is_quota_exceeded s' next now then rotateLoop now s' fuel
    else (s', true)

/-- `GeminiAPIManager.rotate_to_next_api`: probe the successor indices
(wrapping modulo `N`) exactly `len(api_keys)` times. -/
def rotate_to_next_api (s : ManagerState) (now : Int) : ManagerState × Bool :=
  rotateLoop now s s.apiKeys.length

/-- Occurrence of `nee` as a contiguous sublist of the haystack, modelling
Python substring membership `nee in hay`. -/
def subOccurs (nee : List Char) : List Char → Bool
  | [] => nee.isEmpty
  | c :: rest => nee.isPrefixOf (c :: rest) || subOccurs nee rest

/-- Python `str.lower()` on the character sequence of the message (the error
markers searched for are all ASCII). -/
def pyLower (e : String) : List Char :=
  e.toList.map Char.toLower

/-- Error classification of `_invoke_with_gemini`:
`"quota" in msg or "rate" in msg or "429" in msg` on the lower-cased message. -/
def hasQuotaMarker (e : String) : Bool :=
  let msg := pyLower e
  subOccurs "quota".toList msg || subOccurs "rate".toList msg ||
    subOccurs "429".toList msg

/-- Observable outcome of one `_invoke_with_gemini` run: the returned response
or raised error, the chronological list of dispatched backend calls as
(attempt number, credential index) pairs, the number of executed loop
iterations, and the final manager state. -/
structure InvokeOutcome where
  result : Except String String
  calls : List (Nat × Nat)
  iters : Nat
  finalState : ManagerState

/-- Body of the retry loop of `VanillaRAG._invoke_with_gemini`.  `fuel` is the
remaining iteration budget of `for _ in range(max_retries)`, `k` the attempt
number (used to index the clock schedule and the backend oracle) and
`lastError` the `last_error` variable.  The quota pre-check path that raises
`"All Gemini APIs have exceeded quota"` inside the `try` is caught by the
`except` clause, which stores it in `last_error` and rotates once more before
breaking, exactly as in the source. -/
def invokeLoop (times : Nat → Int) (backend : Nat → Nat → Except String String) :
    Nat → ManagerState → Option String → Nat → InvokeOutcome
  | 0, s, lastError, _ =>
    { result := .error (lastError.getD "Could not get response from any Gemini API")
      calls := [], iters := 0, finalState := s }
  | fuel + 1, s, lastError, k =>
    if is_quota_exceeded s s.currentApiIndex (times k) then
      let r1 := rotate_to_next_api s (times k)
      if r1.2 then
        let out := invokeLoop times backend fuel r1.1 lastError (k + 1)
        { out with iters := out.iters + 1 }
      else
        let e := "All Gemini APIs have exceeded quota"
        let r2 := rotate_to_next_api r1.1 (times k)
        if hasQuotaMarker e then
          if r2.2 then
            let out := invokeLoop times backend fuel r2.1 (some e) (k + 1)
            { out with iters := out.iters + 1 }
          else
            { result := .error e, calls := [], iters := 1, finalState := r2.1 }
        else
          if r2.2 then
            let out := invokeLoop times backend fuel r2.1 (some e) (k + 1)
            { out with iters := out.iters + 1 }
          else
            { result := .error e, calls := [], iters := 1, finalState := r2.1 }
    else
      match backend k s.currentApiIndex with
      | .ok resp =>
        { result := .ok resp, calls := [(k, s.currentApiIndex)], iters := 1
          finalState := record_request s s.currentApiIndex (times k) }
      | .error e =>
        let r1 := rotate_to_next_api s (times k)
        if hasQuotaMarker e then
          if r1.2 then
            let out := invokeLoop times backend fuel r1.1 (some e) (k + 1)
            { result := out.result, calls := (k, s.currentApiIndex) :: out.calls
              iters := out.iters + 1, finalState := out.finalState }
          else
            { result := .error e, calls := [(k, s.currentApiIndex)], iters := 1
              finalState := r1.1 }
        else
          if r1.2 then
            let out := invokeLoop times backend fuel r1.1 (some e) (k + 1)
            { result := out.result, calls := (k, s.currentApiIndex) :: out.calls
              iters := out.iters + 1, finalState := out.finalState }
          else
            { result := .error e, calls := [(k, s.currentApiIndex)], iters := 1
              finalState := r1.1 }

/-- `VanillaRAG._invoke_with_gemini`: run the retry loop with
`max_retries = len(self.gemini_manager.api_keys)` starting from attempt `0`
with `last_error = None`. -/
def invoke_with_gemini (s : ManagerState) (times : Nat → Int)
    (backend : Nat → Nat → Except String String) : InvokeOutcome :=
  invokeLoop times backend s.apiKeys.length s none 0

/-- Index probed by `rotate_to_next_api` at step `j` when starting from the
cursor of `s`. -/
def probeIdx (s : ManagerState) (j : Nat) : Nat :=
  (s.currentApiIndex + 1 + j) % s.apiKeys.length

/-- Every credential of `s` is quota-exceeded at instant `t`. -/
def allExceeded (s : ManagerState) (t : Int) : Prop :=
  ∀ i < s.apiKeys.length, is_quota_exceeded s i t = true

lemma is_quota_exceeded_setCursor (s : ManagerState) (x i : Nat) (now : Int) :
    is_quota_exceeded { s with currentApiIndex := x } i now = is_quota_exceeded s i now := rfl

lemma rotateLoop_apiKeys (now : Int) :
    ∀ fuel s, ((rotateLoop now s fuel).1.apiKeys = s.apiKeys) ∧
      ((rotateLoop now s fuel).1.apiRequestHistory = s.apiRequestHistory) := by
  intro fuel
  induction fuel with
  | zero => intro s; exact ⟨rfl, rfl⟩
  | succ n ih =>
    intro s
    simp only [rotateLoop]
    by_cases h :
        is_quota_exceeded { s with currentApiIndex := (s.currentApiIndex + 1) % s.apiKeys.length }
          ((s.currentApiIndex + 1) % s.apiKeys.length) now = true
    · simpa [h] using ih { s with currentApiIndex := (s.currentApiIndex + 1) % s.apiKeys.length }
    · simp [h]

lemma rotateLoop_cursor_lt (now : Int) :
    ∀ fuel s, s.currentApiIndex < s.apiKeys.length →
      (rotateLoop now s fuel).1.currentApiIndex < s.apiKeys.length := by
  intro fuel
  induction fuel with
  | zero => intro s hs; exact hs
  | succ n ih =>
    intro s hs
    have hpos : 0 < s.apiKeys.length := Nat.lt_of_le_of_lt (Nat.zero_le _) hs
    simp only [rotateLoop]
    by_cases h :
        is_quota_exceeded { s with currentApiIndex := (s.currentApiIndex + 1) % s.apiKeys.length }
          ((s.currentApiIndex + 1) % s.apiKeys.length) now = true
    · simpa [h] using
        ih { s with currentApiIndex := (s.currentApiIndex + 1) % s.apiKeys.length }
          (Nat.mod_lt _ hpos)
    · simpa [h] using Nat.mod_lt _ hpos

lemma rotateLoop_all_exceeded (now : Int) :
    ∀ fuel s, s.currentApiIndex < s.apiKeys.length →
      (∀ j < fuel,
        is_quota_exceeded s ((s.currentApiIndex + 1 + j) % s.apiKeys.length) now = true) →
      rotateLoop now s fuel =
        ({ s with currentApiIndex := (s.currentApiIndex + fuel) % s.apiKeys.length }, false) := by
  intro fuel
  induction fuel with
  | zero =>
    intro s hs _
    have : (s.currentApiIndex + 0) % s.apiKeys.length = s.currentApiIndex := by
      simpa using Nat.mod_eq_of_lt hs
    rw [this]
    rfl
  | succ n ih =>
    intro s hs hall
    have hpos : 0 < s.apiKeys.length := Nat.lt_of_le_of_lt (Nat.zero_le _) hs
    have h0 : is_quota_exceeded s ((s.currentApiIndex + 1) % s.apiKeys.length) now = true := by
      simpa using hall 0 (Nat.succ_pos n)
    simp only [rotateLoop]
    rw [is_quota_exceeded_setCursor, h0]
    simp only [if_true]
    have hrec :=
      ih { s with currentApiIndex := (s.currentApiIndex + 1) % s.apiKeys.length }
        (Nat.mod_lt _ hpos)
        (by
          intro j hj
          rw [is_quota_exceeded_setCursor]
          have := hall (j + 1) (Nat.succ_lt_succ hj)
          have harg : ((s.currentApiIndex + 1) % s.apiKeys.length + 1 + j) % s.apiKeys.length
              = (s.currentApiIndex + 1 + (j + 1)) % s.apiKeys.length := by
            rw [Nat.add_assoc, Nat.mod_add_mod]
            congr 1
            omega
          rw [harg]
          simpa using this)
    rw [hrec]
    have harg : ((s.currentApiIndex + 1) % s.apiKeys.length + n) % s.apiKeys.length
        = (s.currentApiIndex + (n + 1)) % s.apiKeys.length := by
      rw [Nat.mod_add_mod]
      congr 1
      omega
    rw [harg]

lemma rotateLoop_found (now : Int) :
    ∀ fuel j₀ s, j₀ < fuel →
      is_quota_exceeded s ((s.currentApiIndex + 1 + j₀) % s.apiKeys.length) now = false →
      (∀ j < j₀,
        is_quota_exceeded s ((s.currentApiIndex + 1 + j) % s.apiKeys.length) now = true) →
      rotateLoop now s fuel =
        ({ s with currentApiIndex := (s.currentApiIndex + 1 + j₀) % s.apiKeys.length }, true) := by
  intro fuel
  induction fuel with
  | zero => intro j₀ s hj; exact absurd hj (Nat.not_lt_zero _)
  | succ n ih =>
    intro j₀ s hj hfound hbefore
    cases j₀ with
    | zero =>
      simp only [rotateLoop]
      rw [is_quota_exceeded_setCursor]
      have : is_quota_exceeded s ((s.currentApiIndex + 1) % s.apiKeys.length) now = false := by
        simpa using hfound
      rw [this]
      simp
    | succ m =>
      have h0 : is_quota_exceeded s ((s.currentApiIndex + 1) % s.apiKeys.length) now = true := by
        simpa using hbefore 0 (Nat.succ_pos m)
      simp only [rotateLoop]
      rw [is_quota_exceeded_setCursor, h0]
      simp only [if_true]
      have hrec :=
        ih m { s with currentApiIndex := (s.currentApiIndex + 1) % s.apiKeys.length }
          (Nat.lt_of_succ_lt_succ hj)
          (by
            rw [is_quota_exceeded_setCursor]
            have harg : ((s.currentApiIndex + 1) % s.apiKeys.length + 1 + m) % s.apiKeys.length
                = (s.currentApiIndex + 1 + (m + 1)) % s.apiKeys.length := by
              rw [Nat.add_assoc, Nat.mod_add_mod]
              congr 1
              omega
            rw [harg]
            exact hfound)
          (by
            intro j hjm
            rw [is_quota_exceeded_setCursor]
            have harg : ((s.currentApiIndex + 1) % s.apiKeys.length + 1 + j) % s.apiKeys.length
                = (s.currentApiIndex + 1 + (j + 1)) % s.apiKeys.length := by
              rw [Nat.add_assoc, Nat.mod_add_mod]
              congr 1
              omega
            rw [harg]
            exact hbefore (j + 1) (Nat.succ_lt_succ hjm))
      rw [hrec]
      have harg : ((s.currentApiIndex + 1) % s.apiKeys.length + 1 + m) % s.apiKeys.length
          = (s.currentApiIndex + 1 + (m + 1)) % s.apiKeys.length := by
        rw [Nat.add_assoc, Nat.mod_add_mod]
        congr 1
        omega
      rw [harg]

lemma rotate_apiKeys (s : ManagerState) (now : Int) :
    (rotate_to_next_api s now).1.apiKeys = s.apiKeys :=
  (rotateLoop_apiKeys now s.apiKeys.length s).1

lemma rotate_history (s : ManagerState) (now : Int) :
    (rotate_to_next_api s now).1.apiRequestHistory = s.apiRequestHistory :=
  (rotateLoop_apiKeys now s.apiKeys.length s).2

lemma rotate_cursor_lt (s : ManagerState) (now : Int)
    (h : s.currentApiIndex < s.apiKeys.length) :
    (rotate_to_next_api s now).1.currentApiIndex < (rotate_to_next_api s now).1.apiKeys.length := by
  rw [rotate_apiKeys]
  exact rotateLoop_cursor_lt now s.apiKeys.length s h

/-- Frame and bound facts tying one `invokeLoop` run to its initial state:
the key list is unchanged; at most `fuel` iterations run; each iteration
dispatches at most one backend call; a valid cursor stays valid; an erroring
run leaves every request history untouched; a successful run appends exactly
one timestamp to the history of the finally selected credential (the one of
the last dispatched call) and no other. -/
def InvokeFrame (times : Nat → Int) (s : ManagerState) (fuel : Nat)
    (out : InvokeOutcome) : Prop :=
  out.finalState.apiKeys = s.apiKeys
  ∧ out.iters ≤ fuel
  ∧ out.calls.length ≤ out.iters
  ∧ (s.currentApiIndex < s.apiKeys.length →
      out.finalState.currentApiIndex < s.apiKeys.length)
  ∧ (∀ e, out.result = .error e →
      out.finalState.apiRequestHistory = s.apiRequestHistory)
  ∧ (∀ r, out.result = .ok r →
      ∃ kk, out.calls.getLast? = some (kk, out.finalState.currentApiIndex)
        ∧ out.finalState.apiRequestHistory =
            Function.update s.apiRequestHistory out.finalState.currentApiIndex
              (s.apiRequestHistory out.finalState.currentApiIndex ++ [times kk]))

lemma getLast?_cons_of_ne_nil {α : Type} (a : α) {l : List α} (h : l ≠ []) :
    (a :: l).getLast? = l.getLast? := by
  cases l with
  | nil => exact absurd rfl h
  | cons b t => exact List.getLast?_cons_cons

lemma rotate_cursor_lt' (s : ManagerState) (now : Int)
    (h : s.currentApiIndex < s.apiKeys.length) :
    (rotate_to_next_api s now).1.currentApiIndex < s.apiKeys.length := by
  have := rotate_cursor_lt s now h
  rwa [rotate_apiKeys] at this

lemma invokeLoop_frame (times : Nat → Int) (backend : Nat → Nat → Except String String) :
    ∀ fuel s lastError k,
      InvokeFrame times s fuel (invokeLoop times backend fuel s lastError k) := by
  intro fuel
  induction fuel with
  | zero =>
    intro s lastError k
    refine ⟨rfl, Nat.le_refl _, Nat.le_refl _, fun h => h, fun e _ => rfl, fun r hr => ?_⟩
    simp [invokeLoop] at hr
  | succ n ih =>
    intro s lastError k
    by_cases hq : is_quota_exceeded s s.currentApiIndex (times k) = true
    · by_cases hr1 : (rotate_to_next_api s (times k)).2 = true
      · -- pre-check exceeded, rotation succeeded: continue with the new state
        have heq : invokeLoop times backend (n + 1) s lastError k =
            { invokeLoop times backend n (rotate_to_next_api s (times k)).1 lastError (k + 1)
              with iters :=
                (invokeLoop times backend n (rotate_to_next_api s (times k)).1 lastError
                  (k + 1)).iters + 1 } := by
          simp [invokeLoop, hq, hr1]
        obtain ⟨ih1, ih2, ih3, ih4, ih5, ih6⟩ :=
          ih (rotate_to_next_api s (times k)).1 lastError (k + 1)
        rw [heq]
        refine ⟨by rw [ih1, rotate_apiKeys], Nat.succ_le_succ ih2,
          Nat.le_trans ih3 (Nat.le_succ _), ?_, ?_, ?_⟩
        · intro hc
          have := ih4 (rotate_cursor_lt s (times k) hc)
          rwa [rotate_apiKeys] at this
        · intro e he
          have := ih5 e he
          rw [this, rotate_history]
        · intro r hr
          obtain ⟨kk, hlast, hupd⟩ := ih6 r hr
          exact ⟨kk, hlast, by rw [hupd, rotate_history]⟩
      · -- pre-check exceeded, rotation failed: the raised exhaustion error is
        -- caught, rotation is attempted once more
        have hr1' : (rotate_to_next_api s (times k)).2 = false := by
          rwa [Bool.not_eq_true] at hr1
        by_cases hr2 : (rotate_to_next_api (rotate_to_next_api s (times k)).1 (times k)).2 = true
        · have heq : invokeLoop times backend (n + 1) s lastError k =
              { invokeLoop times backend n
                  (rotate_to_next_api (rotate_to_next_api s (times k)).1 (times k)).1
                  (some "All Gemini APIs have exceeded quota") (k + 1)
                with iters :=
                  (invokeLoop times backend n
                    (rotate_to_next_api (rotate_to_next_api s (times k)).1 (times k)).1
                    (some "All Gemini APIs have exceeded quota") (k + 1)).iters + 1 } := by
            simp [invokeLoop, hq, hr1', hr2]
          obtain ⟨ih1, ih2, ih3, ih4, ih5, ih6⟩ :=
            ih (rotate_to_next_api (rotate_to_next_api s (times k)).1 (times k)).1
              (some "All Gemini APIs have exceeded quota") (k + 1)
          rw [heq]
          refine ⟨by rw [ih1, rotate_apiKeys, rotate_apiKeys], Nat.succ_le_succ ih2,
            Nat.le_trans ih3 (Nat.le_succ _), ?_, ?_, ?_⟩
          · intro hc
            have hc1 := rotate_cursor_lt s (times k) hc
            have hc2 := rotate_cursor_lt (rotate_to_next_api s (times k)).1 (times k) hc1
            have := ih4 hc2
            rwa [rotate_apiKeys, rotate_apiKeys] at this
          · intro e he
            have := ih5 e he
            rw [this, rotate_history, rotate_history]
          · intro r hr
            obtain ⟨kk, hlast, hupd⟩ := ih6 r hr
            exact ⟨kk, hlast, by rw [hupd, rotate_history, rotate_history]⟩
        · have hr2' :
              (rotate_to_next_api (rotate_to_next_api s (times k)).1 (times k)).2 = false := by
            rwa [Bool.not_eq_true] at hr2
          have heq : invokeLoop times backend (n + 1) s lastError k =
              { result := .error "All Gemini APIs have exceeded quota", calls := []
                iters := 1
                finalState :=
                  (rotate_to_next_api (rotate_to_next_api s (times k)).1 (times k)).1 } := by
            simp [invokeLoop, hq, hr1', hr2']
          rw [heq]
          refine ⟨by rw [rotate_apiKeys, rotate_apiKeys], Nat.succ_le_succ (Nat.zero_le _),
            Nat.zero_le _, ?_, ?_, ?_⟩
          · intro hc
            have hc1 := rotate_cursor_lt s (times k) hc
            have hc2 := rotate_cursor_lt (rotate_to_next_api s (times k)).1 (times k) hc1
            rwa [rotate_apiKeys, rotate_apiKeys] at hc2
          · intro e _
            rw [rotate_history, rotate_history]
          · intro r hr
            simp at hr
    · cases hb : backend k s.currentApiIndex with
      | ok resp =>
        have heq : invokeLoop times backend (n + 1) s lastError k =
            { result := .ok resp, calls := [(k, s.currentApiIndex)], iters := 1
              finalState := record_request s s.currentApiIndex (times k) } := by
          simp [invokeLoop, hq, hb]
        rw [heq]
        refine ⟨rfl, Nat.succ_le_succ (Nat.zero_le _), Nat.le_refl _, fun hc => hc,
          ?_, ?_⟩
        · intro e he
          simp at he
        · intro r hr
          exact ⟨k, rfl, rfl⟩
      | error e =>
        by_cases hr1 : (rotate_to_next_api s (times k)).2 = true
        · have heq : invokeLoop times backend (n + 1) s lastError k =
              { result := (invokeLoop times backend n (rotate_to_next_api s (times k)).1
                  (some e) (k + 1)).result
                calls := (k, s.currentApiIndex) ::
                  (invokeLoop times backend n (rotate_to_next_api s (times k)).1
                    (some e) (k + 1)).calls
                iters := (invokeLoop times backend n (rotate_to_next_api s (times k)).1
                  (some e) (k + 1)).iters + 1
                finalState := (invokeLoop times backend n (rotate_to_next_api s (times k)).1
                  (some e) (k + 1)).finalState } := by
            simp [invokeLoop, hq, hb, hr1]
          obtain ⟨ih1, ih2, ih3, ih4, ih5, ih6⟩ :=
            ih (rotate_to_next_api s (times k)).1 (some e) (k + 1)
          rw [heq]
          refine ⟨by rw [ih1, rotate_apiKeys], Nat.succ_le_succ ih2,
            by simpa using Nat.succ_le_succ ih3, ?_, ?_, ?_⟩
          · intro hc
            have := ih4 (rotate_cursor_lt s (times k) hc)
            rwa [rotate_apiKeys] at this
          · intro e' he
            have := ih5 e' he
            rw [this, rotate_history]
          · intro r hr
            have hr' : (invokeLoop times backend n (rotate_to_next_api s (times k)).1
                (some e) (k + 1)).result = .ok r := hr
            obtain ⟨kk, hlast, hupd⟩ := ih6 r hr'
            refine ⟨kk, ?_, by rw [hupd, rotate_history]⟩
            have hne : (invokeLoop times backend n (rotate_to_next_api s (times k)).1
                (some e) (k + 1)).calls ≠ [] := by
              intro hnil
              rw [hnil] at hlast
              simp at hlast
            show ((k, s.currentApiIndex) :: (invokeLoop times backend n
                (rotate_to_next_api s (times k)).1 (some e) (k + 1)).calls).getLast?
              = some (kk, (invokeLoop times backend n (rotate_to_next_api s (times k)).1
                  (some e) (k + 1)).finalState.currentApiIndex)
            rw [getLast?_cons_of_ne_nil _ hne]
            exact hlast
        · have hr1' : (rotate_to_next_api s (times k)).2 = false := by
            rwa [Bool.not_eq_true] at hr1
          have heq : invokeLoop times backend (n + 1) s lastError k =
              { result := .error e, calls := [(k, s.currentApiIndex)], iters := 1
                finalState := (rotate_to_next_api s (times k)).1 } := by
            simp [invokeLoop, hq, hb, hr1']
          rw [heq]
          refine ⟨by rw [rotate_apiKeys], Nat.succ_le_succ (Nat.zero_le _), Nat.le_refl _,
            ?_, ?_, ?_⟩
          · intro hc
            exact rotate_cursor_lt' s (times k) hc
          · intro e' _
            rw [rotate_history]
          · intro r hr
            simp at hr

lemma foldl_count_eq (p : Int → Prop) [DecidablePred p] :
    ∀ (l : List Int) (n : Nat),
      l.foldl (fun acc t => if p t then acc + 1 else acc) n
        = n + (l.filter (fun t => decide (p t))).length := by
  intro l
  induction l with
  | nil => intro n; simp
  | cons hd tl ih =>
    intro n
    by_cases h : p hd
    · simp [List.foldl, h, ih]
      omega
    · simp [List.foldl, h, ih]

lemma get_quota_usage_eq_filter (s : ManagerState) (i : Nat) (now : Int) :
    get_quota_usage s i now
      = ((s.apiRequestHistory i).filter
          (fun t => decide (t > now - API_QUOTA_WINDOW))).length := by
  unfold get_quota_usage
  simpa using foldl_count_eq (fun t => t > now - API_QUOTA_WINDOW) (s.apiRequestHistory i) 0

lemma filter_length_mono {p q : Int → Bool}
    (h : ∀ x, p x = true → q x = true) :
    ∀ l : List Int, (l.filter p).length ≤ (l.filter q).length := by
  intro l
  induction l with
  | nil => simp
  | cons hd tl ih =>
    by_cases hp : p hd = true
    · have hq := h hd hp
      simp [hp, hq]
      omega
    · have hp' : p hd = false := by
        cases hpb : p hd
        · rfl
        · exact absurd hpb hp
      cases hq : q hd
      · simp [hp', hq]
        omega
      · simp [hp', hq]
        omega

lemma get_quota_usage_antitone (s : ManagerState) (i : Nat) {t t' : Int}
    (h : t ≤ t') : get_quota_usage s i t' ≤ get_quota_usage s i t := by
  rw [get_quota_usage_eq_filter, get_quota_usage_eq_filter]
  apply filter_length_mono
  intro x hx
  simp only [decide_eq_true_eq] at hx ⊢
  omega

lemma is_quota_exceeded_back (s : ManagerState) (i : Nat) {t t' : Int}
    (h : t ≤ t') (hx : is_quota_exceeded s i t' = true) :
    is_quota_exceeded s i t = true := by
  unfold is_quota_exceeded at hx ⊢
  simp only [decide_eq_true_eq] at hx ⊢
  exact Nat.le_trans hx (get_quota_usage_antitone s i h)

lemma rotate_all_exceeded (s : ManagerState) (now : Int)
    (hc : s.currentApiIndex < s.apiKeys.length)
    (hall : ∀ i < s.apiKeys.length, is_quota_exceeded s i now = true) :
    rotate_to_next_api s now = (s, false) := by
  have hpos : 0 < s.apiKeys.length := Nat.lt_of_le_of_lt (Nat.zero_le _) hc
  have hstep := rotateLoop_all_exceeded now s.apiKeys.length s hc
    (fun j _ => hall _ (Nat.mod_lt _ hpos))
  have hcur : (s.currentApiIndex + s.apiKeys.length) % s.apiKeys.length
      = s.currentApiIndex := by
    rw [Nat.add_mod_right]
    exact Nat.mod_eq_of_lt hc
  unfold rotate_to_next_api
  rw [hstep, hcur]

/-- Contract of `rotate_to_next_api` at state `s` and instant `now`, with
`N = len(api_keys)` and probe sequence `probeIdx s 0, …, probeIdx s (N-1)`
(that is, `start+1, start+2, …` wrapping modulo `N`): the cursor is committed
to the first probed index that is not quota-exceeded and the call returns
true; if every probed index is exceeded the call returns false with the
cursor at the last probed position; a true return always selects a
non-exceeded credential; and when nothing is exceeded the call returns true,
moving the cursor iff there is more than one credential. -/
def rotateContract (s : ManagerState) (now : Int) : Prop :=
  (∀ j₀ < s.apiKeys.length,
      is_quota_exceeded s (probeIdx s j₀) now = false →
      (∀ j < j₀, is_quota_exceeded s (probeIdx s j) now = true) →
      rotate_to_next_api s now = ({ s with currentApiIndex := probeIdx s j₀ }, true))
  ∧ ((∀ j < s.apiKeys.length, is_quota_exceeded s (probeIdx s j) now = true) →
      rotate_to_next_api s now
        = ({ s with currentApiIndex := probeIdx s (s.apiKeys.length - 1) }, false))
  ∧ ((rotate_to_next_api s now).2 = true →
      is_quota_exceeded (rotate_to_next_api s now).1
        (rotate_to_next_api s now).1.currentApiIndex now = false)
  ∧ ((∀ i < s.apiKeys.length, is_quota_exceeded s i now = false) →
      (rotate_to_next_api s now).2 = true
      ∧ (s.apiKeys.length = 1 →
          (rotate_to_next_api s now).1.currentApiIndex = s.currentApiIndex)
      ∧ (1 < s.apiKeys.length →
          (rotate_to_next_api s now).1.currentApiIndex ≠ s.currentApiIndex))

/-- C1: for every manager state with `N ≥ 1` credentials and a valid cursor,
`rotate_to_next_api` probes at most `N` successive indices
(`start+1, start+2, …` wrapping modulo `N`), commits the cursor to the first
probed index whose quota is not exceeded and returns true; if every probed
index is exceeded it returns false with the cursor left at its last probed
position; when no credential is exceeded it returns true and selects a
different index than the start for `N > 1` and the same index for `N = 1`;
and whenever it returns true the credential at the committed cursor is not
quota-exceeded at that instant. -/
theorem rotate_to_next_api_contract (s : ManagerState) (now : Int)
    (hc : s.currentApiIndex < s.apiKeys.length) : rotateContract s now := by
  have hpos : 0 < s.apiKeys.length := Nat.lt_of_le_of_lt (Nat.zero_le _) hc
  have hfirst : ∀ j₀ < s.apiKeys.length,
      is_quota_exceeded s (probeIdx s j₀) now = false →
      (∀ j < j₀, is_quota_exceeded s (probeIdx s j) now = true) →
      rotate_to_next_api s now
        = ({ s with currentApiIndex := probeIdx s j₀ }, true) := by
    intro j₀ hj₀ hfound hbefore
    unfold rotate_to_next_api
    exact rotateLoop_found now s.apiKeys.length j₀ s hj₀ hfound hbefore
  have hall : (∀ j < s.apiKeys.length, is_quota_exceeded s (probeIdx s j) now = true) →
      rotate_to_next_api s now
        = ({ s with currentApiIndex := probeIdx s (s.apiKeys.length - 1) }, false) := by
    intro h
    unfold rotate_to_next_api
    rw [rotateLoop_all_exceeded now s.apiKeys.length s hc h]
    have hcur : (s.currentApiIndex + s.apiKeys.length) % s.apiKeys.length
        = probeIdx s (s.apiKeys.length - 1) := by
      unfold probeIdx
      congr 1
      omega
    rw [hcur]
  refine ⟨hfirst, hall, ?_, ?_⟩
  · intro htrue
    by_cases hex : ∀ j < s.apiKeys.length, is_quota_exceeded s (probeIdx s j) now = true
    · rw [hall hex] at htrue
      simp at htrue
    · push_neg at hex
      obtain ⟨jw, hjw, hjex⟩ := hex
      have hPw : is_quota_exceeded s (probeIdx s jw) now = false := by
        cases hb : is_quota_exceeded s (probeIdx s jw) now
        · rfl
        · exact absurd hb hjex
      have hP : ∃ j, is_quota_exceeded s (probeIdx s j) now = false := ⟨jw, hPw⟩
      have hj₀N : Nat.find hP < s.apiKeys.length :=
        Nat.lt_of_le_of_lt (Nat.find_min' hP hPw) hjw
      have hfound := Nat.find_spec hP
      have hbefore : ∀ j < Nat.find hP,
          is_quota_exceeded s (probeIdx s j) now = true := by
        intro j hj
        have hmin := Nat.find_min hP hj
        cases hb : is_quota_exceeded s (probeIdx s j) now
        · exact absurd hb hmin
        · rfl
      rw [hfirst (Nat.find hP) hj₀N hfound hbefore]
      show is_quota_exceeded { s with currentApiIndex := probeIdx s (Nat.find hP) }
        (probeIdx s (Nat.find hP)) now = false
      rw [is_quota_exceeded_setCursor]
      exact hfound
  · intro hnone
    have hprobe0lt : probeIdx s 0 < s.apiKeys.length := by
      unfold probeIdx
      exact Nat.mod_lt _ hpos
    have h0 : is_quota_exceeded s (probeIdx s 0) now = false := hnone _ hprobe0lt
    have hr := hfirst 0 hpos h0 (fun j hj => absurd hj (Nat.not_lt_zero j))
    rw [hr]
    refine ⟨rfl, ?_, ?_⟩
    · intro h1
      show probeIdx s 0 = s.currentApiIndex
      unfold probeIdx
      rw [Nat.add_zero, h1, Nat.mod_one]
      omega
    · intro h1
      show probeIdx s 0 ≠ s.currentApiIndex
      unfold probeIdx
      rw [Nat.add_zero]
      intro heqq
      rcases Nat.lt_or_ge (s.currentApiIndex + 1) s.apiKeys.length with hlt | hge
      · rw [Nat.mod_eq_of_lt hlt] at heqq
        omega
      · have hNe : s.currentApiIndex + 1 = s.apiKeys.length := by omega
        rw [hNe, Nat.mod_self] at heqq
        omega

/-- Witness for C1 at a concrete two-credential state with empty histories. -/
theorem rotate_to_next_api_contract_witness :
    (⟨["a", "b"], 0, fun _ => []⟩ : ManagerState).currentApiIndex
        < (⟨["a", "b"], 0, fun _ => []⟩ : ManagerState).apiKeys.length
    ∧ rotateContract ⟨["a", "b"], 0, fun _ => []⟩ 0 :=
  ⟨by decide, rotate_to_next_api_contract ⟨["a", "b"], 0, fun _ => []⟩ 0 (by decide)⟩

/-- C10: the final probe of `rotate_to_next_api` is the starting index itself:
when every credential other than the starting one is quota-exceeded but the
starting one is not (including the degenerate one-credential case), the call
returns true with the cursor back at its starting index. -/
theorem rotate_final_probe_is_start (s : ManagerState) (now : Int)
    (hc : s.currentApiIndex < s.apiKeys.length)
    (hnot : is_quota_exceeded s s.currentApiIndex now = false)
    (hother : ∀ i < s.apiKeys.length, i ≠ s.currentApiIndex →
        is_quota_exceeded s i now = true) :
    (rotate_to_next_api s now).2 = true
    ∧ (rotate_to_next_api s now).1.currentApiIndex = s.currentApiIndex := by
  have hpos : 0 < s.apiKeys.length := Nat.lt_of_le_of_lt (Nat.zero_le _) hc
  have hpN : (s.currentApiIndex + 1 + (s.apiKeys.length - 1)) % s.apiKeys.length
      = s.currentApiIndex := by
    have harg : s.currentApiIndex + 1 + (s.apiKeys.length - 1)
        = s.currentApiIndex + s.apiKeys.length := by omega
    rw [harg, Nat.add_mod_right]
    exact Nat.mod_eq_of_lt hc
  have hfound : is_quota_exceeded s
      ((s.currentApiIndex + 1 + (s.apiKeys.length - 1)) % s.apiKeys.length) now = false := by
    rw [hpN]
    exact hnot
  have hbefore : ∀ j < s.apiKeys.length - 1,
      is_quota_exceeded s
        ((s.currentApiIndex + 1 + j) % s.apiKeys.length) now = true := by
    intro j hj
    have hlt : (s.currentApiIndex + 1 + j) % s.apiKeys.length < s.apiKeys.length :=
      Nat.mod_lt _ hpos
    refine hother _ hlt ?_
    intro heq
    have hcm : s.currentApiIndex % s.apiKeys.length = s.currentApiIndex :=
      Nat.mod_eq_of_lt hc
    have hmod : s.currentApiIndex % s.apiKeys.length
        = (s.currentApiIndex + (1 + j)) % s.apiKeys.length := by
      rw [hcm, ← heq]
      congr 1
      omega
    have hdvd := (Nat.modEq_iff_dvd' (Nat.le_add_right s.currentApiIndex (1 + j))).1 hmod
    have hsub : s.currentApiIndex + (1 + j) - s.currentApiIndex = 1 + j := by omega
    rw [hsub] at hdvd
    have := Nat.le_of_dvd (by omega) hdvd
    omega
  have hrot := rotateLoop_found now s.apiKeys.length (s.apiKeys.length - 1) s
    (by omega) hfound hbefore
  unfold rotate_to_next_api
  rw [hrot]
  exact ⟨rfl, hpN⟩

/-- Witness for C10: two credentials, the second exceeded (ten fresh
timestamps), the first not; rotation wraps all the way back to index 0. -/
theorem rotate_final_probe_is_start_witness :
    ((⟨["a", "b"], 0, fun i => if i = 1 then
        [100, 100, 100, 100, 100, 100, 100, 100, 100, 100] else []⟩ :
        ManagerState).currentApiIndex < 2
    ∧ is_quota_exceeded ⟨["a", "b"], 0, fun i => if i = 1 then
        [100, 100, 100, 100, 100, 100, 100, 100, 100, 100] else []⟩ 0 100 = false
    ∧ (∀ i < 2, i ≠ 0 → is_quota_exceeded ⟨["a", "b"], 0, fun i => if i = 1 then
        [100, 100, 100, 100, 100, 100, 100, 100, 100, 100] else []⟩ i 100 = true))
    ∧ ((rotate_to_next_api ⟨["a", "b"], 0, fun i => if i = 1 then
        [100, 100, 100, 100, 100, 100, 100, 100, 100, 100] else []⟩ 100).2 = true
      ∧ (rotate_to_next_api ⟨["a", "b"], 0, fun i => if i = 1 then
        [100, 100, 100, 100, 100, 100, 100, 100, 100, 100] else []⟩ 100).1.currentApiIndex
        = 0) :=
  ⟨⟨by decide, by decide, by decide⟩,
    rotate_final_probe_is_start _ 100 (by decide) (by decide) (by decide)⟩

/-- C2 counterexample: with a single credential whose local quota is not
exceeded (empty history), the rotation performed by the error handler does
NOT return false — its single probe wraps back to the sole credential, finds
it available, and returns true. -/
theorem single_key_rotate_counterexample :
    ¬ ((rotate_to_next_api ⟨["k"], 0, fun _ => []⟩ 0).2 = false) := by decide

/-- C2 (amended): with exactly one credential that is not locally
quota-exceeded and a backend call failing with any error (such as
"429 rate limit") on the first attempt, the error-handler rotation returns
TRUE (it re-selects the sole credential), the attempt budget `N = 1` is then
exhausted, and `invoke` propagates the original backend error rather than a
generic synthesized one. -/
theorem single_key_backend_error_propagates (s : ManagerState) (times : Nat → Int)
    (backend : Nat → Nat → Except String String) (e : String)
    (hlen : s.apiKeys.length = 1)
    (hcur : s.currentApiIndex = 0)
    (hq : is_quota_exceeded s 0 (times 0) = false)
    (hb : backend 0 0 = .error e) :
    (invoke_with_gemini s times backend).result = .error e
    ∧ (rotate_to_next_api s (times 0)).2 = true := by
  have hrot : rotate_to_next_api s (times 0) = ({ s with currentApiIndex := 0 }, true) := by
    unfold rotate_to_next_api
    rw [hlen]
    simp [rotateLoop, hlen, hcur, Nat.mod_one, is_quota_exceeded_setCursor, hq]
  have hqc : is_quota_exceeded s s.currentApiIndex (times 0) = false := by
    rw [hcur]
    exact hq
  have hbc : backend 0 s.currentApiIndex = .error e := by
    rw [hcur]
    exact hb
  constructor
  · unfold invoke_with_gemini
    rw [hlen]
    simp [invokeLoop, hqc, hbc, hrot]
  · rw [hrot]

/-- Witness for the amended C2 at a concrete single-credential state and a
backend failing with a 429 rate-limit error. -/
theorem single_key_backend_error_propagates_witness :
    ((⟨["k"], 0, fun _ => []⟩ : ManagerState).apiKeys.length = 1
    ∧ (⟨["k"], 0, fun _ => []⟩ : ManagerState).currentApiIndex = 0
    ∧ is_quota_exceeded ⟨["k"], 0, fun _ => []⟩ 0 0 = false
    ∧ (fun _ _ => (.error "429 rate limit" : Except String String)) 0 0
        = .error "429 rate limit")
    ∧ ((invoke_with_gemini ⟨["k"], 0, fun _ => []⟩ (fun _ => 0)
          (fun _ _ => .error "429 rate limit")).result = .error "429 rate limit"
      ∧ (rotate_to_next_api ⟨["k"], 0, fun _ => []⟩ 0).2 = true) :=
  ⟨⟨by decide, by decide, by decide, rfl⟩,
    single_key_backend_error_propagates ⟨["k"], 0, fun _ => []⟩ (fun _ => 0)
      (fun _ _ => .error "429 rate limit") "429 rate limit"
      (by decide) (by decide) (by decide) rfl⟩

/-- C3: if at some attempt's instant every credential is simultaneously
quota-exceeded (exactly the situation in which the quota pre-check reports
the current credential exceeded and `rotate` returns false), then — the clock
being monotone and no successful call having recorded anything — the whole
invocation aborts with the "All Gemini APIs have exceeded quota" error and
dispatches no backend call at all. -/
theorem invoke_all_exhausted (s : ManagerState) (times : Nat → Int)
    (backend : Nat → Nat → Except String String)
    (hmono : Monotone times)
    (hc : s.currentApiIndex < s.apiKeys.length)
    (hex : ∃ k, allExceeded s (times k)) :
    (invoke_with_gemini s times backend).result
      = .error "All Gemini APIs have exceeded quota"
    ∧ (invoke_with_gemini s times backend).calls = [] := by
  obtain ⟨k0, hk0⟩ := hex
  have hall0 : allExceeded s (times 0) := by
    intro i hi
    exact is_quota_exceeded_back s i (hmono (Nat.zero_le k0)) (hk0 i hi)
  obtain ⟨m, hm⟩ : ∃ m, s.apiKeys.length = m + 1 :=
    ⟨s.apiKeys.length - 1, by omega⟩
  have hrot : rotate_to_next_api s (times 0) = (s, false) :=
    rotate_all_exceeded s (times 0) hc hall0
  have hq : is_quota_exceeded s s.currentApiIndex (times 0) = true := hall0 _ hc
  constructor
  · unfold invoke_with_gemini
    rw [hm]
    simp [invokeLoop, hq, hrot]
  · unfold invoke_with_gemini
    rw [hm]
    simp [invokeLoop, hq, hrot]

/-- Witness for C3: one credential with ten fresh timestamps at instant 0 is
exceeded, so the invocation aborts without any backend call. -/
theorem invoke_all_exhausted_witness :
    (Monotone (fun _ : Nat => (0 : Int))
    ∧ (⟨["k"], 0, fun _ => [0, 0, 0, 0, 0, 0, 0, 0, 0, 0]⟩ :
        ManagerState).currentApiIndex < 1
    ∧ (∃ k, allExceeded ⟨["k"], 0, fun _ => [0, 0, 0, 0, 0, 0, 0, 0, 0, 0]⟩
        ((fun _ : Nat => (0 : Int)) k)))
    ∧ ((invoke_with_gemini ⟨["k"], 0, fun _ => [0, 0, 0, 0, 0, 0, 0, 0, 0, 0]⟩
          (fun _ => 0) (fun _ _ => .ok "r")).result
        = .error "All Gemini APIs have exceeded quota"
      ∧ (invoke_with_gemini ⟨["k"], 0, fun _ => [0, 0, 0, 0, 0, 0, 0, 0, 0, 0]⟩
          (fun _ => 0) (fun _ _ => .ok "r")).calls = []) :=
  ⟨⟨monotone_const, by decide, ⟨0, by unfold allExceeded; decide⟩⟩,
    invoke_all_exhausted ⟨["k"], 0, fun _ => [0, 0, 0, 0, 0, 0, 0, 0, 0, 0]⟩
      (fun _ => 0) (fun _ _ => .ok "r") monotone_const (by decide)
      ⟨0, by unfold allExceeded; decide⟩⟩

/-- C4: for every input state, clock schedule and backend behaviour, the
invocation executes at most `N = len(api_keys)` loop iterations (quota-check
iterations included) and dispatches at most one backend call per iteration;
termination is inherent, `invoke_with_gemini` being a total function of its
fuel `N`. -/
theorem invoke_attempt_bound (s : ManagerState) (times : Nat → Int)
    (backend : Nat → Nat → Except String String) :
    (invoke_with_gemini s times backend).iters ≤ s.apiKeys.length
    ∧ (invoke_with_gemini s times backend).calls.length
        ≤ (invoke_with_gemini s times backend).iters := by
  obtain ⟨-, h2, h3, -, -, -⟩ := invokeLoop_frame times backend s.apiKeys.length s none 0
  exact ⟨h2, h3⟩

/-- C5: `get_quota_usage` returns exactly the number of recorded timestamps
strictly newer than `now` minus the window (a pure function of the log — the
embedding takes no state and returns none, matching the mutation-free
source), `is_quota_exceeded` holds iff that count reaches the limit, and the
constants are 10 requests per 60-second window. -/
theorem quota_usage_spec (s : ManagerState) (i : Nat) (now : Int) :
    get_quota_usage s i now
      = ((s.apiRequestHistory i).filter
          (fun t => decide (t > now - API_QUOTA_WINDOW))).length
    ∧ (is_quota_exceeded s i now = true ↔ API_QUOTA_LIMIT ≤ get_quota_usage s i now)
    ∧ API_QUOTA_LIMIT = 10 ∧ API_QUOTA_WINDOW = 60 := by
  refine ⟨get_quota_usage_eq_filter s i now, ?_, rfl, rfl⟩
  unfold is_quota_exceeded
  simp [decide_eq_true_eq, ge_iff_le]

/-- C6: a failed backend attempt never modifies any credential's
request-timestamp log — whenever the invocation ends in an error, every
history equals its initial value — and, concretely, with two credentials
where credential 0's call fails with a non-quota error and credential 1's
succeeds, the invocation returns credential 1's response while credential
0's log is untouched. -/
theorem invoke_failure_frame :
    (∀ (s : ManagerState) (times : Nat → Int)
        (backend : Nat → Nat → Except String String) (e : String),
      (invoke_with_gemini s times backend).result = .error e →
        (invoke_with_gemini s times backend).finalState.apiRequestHistory
          = s.apiRequestHistory)
    ∧ ((invoke_with_gemini ⟨["k1", "k2"], 0, fun _ => []⟩ (fun _ => 0)
          (fun _ i => if i = 0 then .error "malformed response"
            else .ok "resp-1")).result = .ok "resp-1"
      ∧ (invoke_with_gemini ⟨["k1", "k2"], 0, fun _ => []⟩ (fun _ => 0)
          (fun _ i => if i = 0 then .error "malformed response"
            else .ok "resp-1")).finalState.apiRequestHistory 0 = []) := by
  refine ⟨?_, by rfl, by rfl⟩
  intro s times backend e h
  exact (invokeLoop_frame times backend s.apiKeys.length s none 0).2.2.2.2.1 e h

/-- Witness for C6: a single credential whose backend always fails leaves the
history function untouched. -/
theorem invoke_failure_frame_witness :
    ((invoke_with_gemini ⟨["k"], 0, fun _ => []⟩ (fun _ => 0)
        (fun _ _ => .error "boom")).result = .error "boom")
    ∧ (invoke_with_gemini ⟨["k"], 0, fun _ => []⟩ (fun _ => 0)
        (fun _ _ => .error "boom")).finalState.apiRequestHistory
      = (⟨["k"], 0, fun _ => []⟩ : ManagerState).apiRequestHistory :=
  ⟨rfl, invoke_failure_frame.1 ⟨["k"], 0, fun _ => []⟩ (fun _ => 0)
    (fun _ _ => .error "boom") "boom" rfl⟩

/-- C7: when the invocation succeeds, exactly one timestamp is appended to
the log of the finally selected credential — the credential of the last
dispatched backend call, after which neither further attempts nor further
rotation happen — and every other credential's log is unchanged. -/
theorem invoke_success_records_once (s : ManagerState) (times : Nat → Int)
    (backend : Nat → Nat → Except String String) (r : String)
    (h : (invoke_with_gemini s times backend).result = .ok r) :
    ∃ kk,
      (invoke_with_gemini s times backend).calls.getLast?
        = some (kk, (invoke_with_gemini s times backend).finalState.currentApiIndex)
      ∧ (invoke_with_gemini s times backend).finalState.apiRequestHistory
            ((invoke_with_gemini s times backend).finalState.currentApiIndex)
          = s.apiRequestHistory
              ((invoke_with_gemini s times backend).finalState.currentApiIndex)
            ++ [times kk]
      ∧ ∀ j, j ≠ (invoke_with_gemini s times backend).finalState.currentApiIndex →
          (invoke_with_gemini s times backend).finalState.apiRequestHistory j
            = s.apiRequestHistory j := by
  unfold invoke_with_gemini at h ⊢
  obtain ⟨-, -, -, -, -, h6⟩ := invokeLoop_frame times backend s.apiKeys.length s none 0
  obtain ⟨kk, hlast, hupd⟩ := h6 r h
  refine ⟨kk, hlast, ?_, ?_⟩
  · rw [hupd, Function.update_same]
  · intro j hj
    rw [hupd, Function.update_noteq hj]

/-- Witness for C7: a single always-succeeding credential records one
timestamp. -/
theorem invoke_success_records_once_witness :
    ((invoke_with_gemini ⟨["k"], 0, fun _ => []⟩ (fun _ => 0)
        (fun _ _ => .ok "hello")).result = .ok "hello")
    ∧ ∃ kk,
        (invoke_with_gemini ⟨["k"], 0, fun _ => []⟩ (fun _ => 0)
            (fun _ _ => .ok "hello")).calls.getLast?
          = some (kk, (invoke_with_gemini ⟨["k"], 0, fun _ => []⟩ (fun _ => 0)
              (fun _ _ => .ok "hello")).finalState.currentApiIndex)
        ∧ (invoke_with_gemini ⟨["k"], 0, fun _ => []⟩ (fun _ => 0)
              (fun _ _ => .ok "hello")).finalState.apiRequestHistory
              ((invoke_with_gemini ⟨["k"], 0, fun _ => []⟩ (fun _ => 0)
                (fun _ _ => .ok "hello")).finalState.currentApiIndex)
            = (⟨["k"], 0, fun _ => []⟩ : ManagerState).apiRequestHistory
                ((invoke_with_gemini ⟨["k"], 0, fun _ => []⟩ (fun _ => 0)
                  (fun _ _ => .ok "hello")).finalState.currentApiIndex)
              ++ [(fun _ : Nat => (0 : Int)) kk]
        ∧ ∀ j, j ≠ (invoke_with_gemini ⟨["k"], 0, fun _ => []⟩ (fun _ => 0)
              (fun _ _ => .ok "hello")).finalState.currentApiIndex →
            (invoke_with_gemini ⟨["k"], 0, fun _ => []⟩ (fun _ => 0)
                (fun _ _ => .ok "hello")).finalState.apiRequestHistory j
              = (⟨["k"], 0, fun _ => []⟩ : ManagerState).apiRequestHistory j :=
  ⟨rfl, invoke_success_records_once ⟨["k"], 0, fun _ => []⟩ (fun _ => 0)
    (fun _ _ => .ok "hello") "hello" rfl⟩

/-- C8: construction filters missing/blank entries from the credential
sequence, fails with the configuration error exactly when the filtered list
is empty, and otherwise yields the initial state with cursor 0 and one empty
request log per retained credential. -/
theorem mk_manager_spec (keys : List (Option String)) :
    (mkGeminiAPIManager keys = .error "No Gemini API keys provided"
      ↔ filteredKeys keys = [])
    ∧ ∀ m, mkGeminiAPIManager keys = .ok m →
        m.apiKeys = filteredKeys keys ∧ m.currentApiIndex = 0
        ∧ ∀ i, m.apiRequestHistory i = [] := by
  unfold mkGeminiAPIManager
  by_cases h : filteredKeys keys = []
  · refine ⟨⟨fun _ => h, fun _ => by rw [if_pos h]⟩, ?_⟩
    intro m hm
    rw [if_pos h] at hm
    exact absurd hm (by simp)
  · refine ⟨⟨fun habs => ?_, fun habs => absurd habs h⟩, ?_⟩
    · rw [if_neg h] at habs
      exact absurd habs (by simp)
    · intro m hm
      rw [if_neg h] at hm
      injection hm with hm'
      rw [← hm']
      exact ⟨rfl, rfl, fun i => rfl⟩

/-- Witness for C8 at a concrete key list with one missing and one blank
entry. -/
theorem mk_manager_spec_witness :
    (mkGeminiAPIManager [some "k", none, some ""]
      = .ok ⟨["k"], 0, fun _ => []⟩)
    ∧ ((⟨["k"], 0, fun _ => []⟩ : ManagerState).apiKeys
        = filteredKeys [some "k", none, some ""]
      ∧ (⟨["k"], 0, fun _ => []⟩ : ManagerState).currentApiIndex = 0
      ∧ ∀ i, (⟨["k"], 0, fun _ => []⟩ : ManagerState).apiRequestHistory i = []) :=
  ⟨rfl, (mk_manager_spec [some "k", none, some ""]).2 ⟨["k"], 0, fun _ => []⟩ rfl⟩

/-- C9: the rotation cursor lies in `[0, N)` after construction and is
preserved by every operation — `record_request` (and the read-only
`get_quota_usage`/`is_quota_exceeded`, which take no state and return none),
`rotate_to_next_api`, and a whole `invoke_with_gemini` run — so
`get_current_api_key` always returns a credential. -/
theorem cursor_invariant :
    (∀ keys m, mkGeminiAPIManager keys = .ok m →
        m.currentApiIndex < m.apiKeys.length)
    ∧ (∀ (s : ManagerState) (now : Int), s.currentApiIndex < s.apiKeys.length →
        (rotate_to_next_api s now).1.currentApiIndex
          < (rotate_to_next_api s now).1.apiKeys.length)
    ∧ (∀ (s : ManagerState) (i : Nat) (now : Int),
        s.currentApiIndex < s.apiKeys.length →
        (record_request s i now).currentApiIndex
          < (record_request s i now).apiKeys.length)
    ∧ (∀ s : ManagerState, s.currentApiIndex < s.apiKeys.length →
        (get_current_api_key s).isSome = true)
    ∧ (∀ (s : ManagerState) (times : Nat → Int)
        (backend : Nat → Nat → Except String String),
        s.currentApiIndex < s.apiKeys.length →
        (invoke_with_gemini s times backend).finalState.currentApiIndex
          < (invoke_with_gemini s times backend).finalState.apiKeys.length) := by
  refine ⟨?_, ?_, ?_, ?_, ?_⟩
  · intro keys m hm
    unfold mkGeminiAPIManager at hm
    by_cases h : filteredKeys keys = []
    · rw [if_pos h] at hm
      exact absurd hm (by simp)
    · rw [if_neg h] at hm
      injection hm with hm'
      rw [← hm']
      simpa using List.length_pos.2 h
  · intro s now h
    exact rotate_cursor_lt s now h
  · intro s i now h
    exact h
  · intro s h
    unfold get_current_api_key
    rw [List.get?_eq_get h]
    rfl
  · intro s times backend h
    unfold invoke_with_gemini
    obtain ⟨h1, -, -, h4, -, -⟩ := invokeLoop_frame times backend s.apiKeys.length s none 0
    rw [h1]
    exact h4 h

/-- Witness for C9: the invariant holds through a rotation at a concrete
state. -/
theorem cursor_invariant_witness :
    ((⟨["a", "b"], 1, fun _ => []⟩ : ManagerState).currentApiIndex
      < (⟨["a", "b"], 1, fun _ => []⟩ : ManagerState).apiKeys.length)
    ∧ (rotate_to_next_api ⟨["a", "b"], 1, fun _ => []⟩ 0).1.currentApiIndex
      < (rotate_to_next_api ⟨["a", "b"], 1, fun _ => []⟩ 0).1.apiKeys.length :=
  ⟨by decide, cursor_invariant.2.1 ⟨["a", "b"], 1, fun _ => []⟩ 0 (by decide)⟩
